import Mathlib

/-! Zypper RPM package manager: tooling image, update plan and layer composition.

A shallow embedding of `pkg/pkgmgr/zypper_rpm.go`.

* Go strings are Lean `String`s; the few standard-library functions the file
  uses (`strings.Join`, `fmt.Sprintf` with the verbs `%s` and `%%`,
  `path.Join`) are written out on character lists.
* An `llb.State` is the operation graph that the code builds. A state that
  the configuration supplies (`ImageState`, `PatchedImageState`) is either
  `llb.Scratch()` or a state with an output, a leaf `Given h` over an arbitrary
  type of handles.
* The client functions `llb.Merge` and `llb.Diff` are functions on graphs: a
  merge drops its scratch inputs and needs two inputs left to build a vertex,
  and a difference from scratch is the upper state. The vertices they build
  are the constructors `MergeOp` and `DiffOp`.
* Functions and constants of the package that live in other files
  (`GetUniqueLatestUpdates`, `validateRPMPackageVersions`,
  `buildkit.ExtractFileFromState`, `utils.GetProxy`, `rpmLibPath`, `rpmNDB`,
  the RPM version comparer) are fields of `Deps`.
* Requests that leave the function (choosing the tooling image, reading the
  manifest back through the build engine) are recorded in a trace.
  Logging calls, the context and the build client are not part of the model.
* The local values of `zypperChrootInstallUpdates` that the statements refer
  to (`chrootDir`, `manifestFile`, the script and its package list, the state
  `downloaded` of the run) are definitions of their own, used by the method.
-/

namespace Copa

/-! ## Standard library -/

/-- Go `strings.Join(elems, sep)`. -/
def strings.Join : List String → String → String
  | [], _ => ""
  | [a], _ => a
  | a :: b :: rest, sep => a ++ sep ++ strings.Join (b :: rest) sep

/-- Go reports arguments that no verb consumed as `%!(EXTRA string=a, string=b)`. -/
def fmt.extra (args : List String) : List Char :=
  "%!(EXTRA ".data ++ (strings.Join (args.map (fun a => "string=" ++ a)) ", ").data ++ [')']

/-- Expansion of a format on character lists: `%%` is a percent sign, `%s`
consumes the next argument (`%!s(MISSING)` when there is none), every other
character is copied. The verbs other than `%s` are not modelled. -/
def fmt.expand : List Char → List String → List Char
  | [], [] => []
  | [], a :: args => fmt.extra (a :: args)
  | '%' :: '%' :: rest, args => '%' :: fmt.expand rest args
  | '%' :: 's' :: rest, a :: args => a.data ++ fmt.expand rest args
  | '%' :: 's' :: rest, [] => "%!s(MISSING)".data ++ fmt.expand rest []
  | c :: rest, args => c :: fmt.expand rest args

/-- Go `fmt.Sprintf(format, args...)` for string arguments. -/
def fmt.Sprintf (format : String) (args : List String) : String :=
  ⟨fmt.expand format.data args⟩

/-- Components of a path: the pieces between slashes (`cur` is the piece being
read, reversed). -/
def path.split : List Char → List Char → List (List Char)
  | [], cur => [cur.reverse]
  | c :: rest, cur =>
    if c = '/' then cur.reverse :: path.split rest [] else path.split rest (c :: cur)

/-- The lexical processing of Go `path.Clean` on components, `out` being the
cleaned components so far, innermost first: empty and `.` components are
dropped, `..` removes the preceding non-`..` component, is dropped at the root
of a rooted path and kept otherwise. -/
def path.cleanComponents (rooted : Bool) : List (List Char) → List (List Char) → List (List Char)
  | [], out => out.reverse
  | c :: rest, out =>
    if c = [] ∨ c = ['.'] then path.cleanComponents rooted rest out
    else if c = ['.', '.'] then
      match out with
      | [] => if rooted then path.cleanComponents rooted rest []
              else path.cleanComponents rooted rest [c]
      | top :: below =>
        if top = ['.', '.'] then path.cleanComponents rooted rest (c :: out)
        else path.cleanComponents rooted rest below
    else path.cleanComponents rooted rest (c :: out)

/-- Components joined by single slashes. -/
def path.unsplit : List (List Char) → List Char
  | [] => []
  | [c] => c
  | c :: d :: rest => c ++ '/' :: path.unsplit (d :: rest)

/-- Go `path.Clean`. -/
def path.Clean (p : String) : String :=
  let rooted := p.data.head? = some '/'
  let comps := path.cleanComponents rooted (path.split p.data []) []
  if rooted then ⟨'/' :: path.unsplit comps⟩
  else if comps = [] then "." else ⟨path.unsplit comps⟩

/-- Go `path.Join(elem...)`: empty elements are ignored, the rest is joined
with slashes and cleaned; the result is empty when every element is. -/
def path.Join (elem : List String) : String :=
  let nonEmpty := elem.filter (fun e => e ≠ "")
  if nonEmpty = [] then "" else path.Clean (strings.Join nonEmpty "/")

/-! ## Tooling image -/

/-- The function `getZypperToolingImageName` of `zypper_rpm.go`. -/
def getZypperToolingImageName (osType : String) (osVersion : String) : String :=
  let registry := "registry.opensuse.org"
  let version := osVersion
  let registryAndImage : String × String :=
    match osType with
    | "sles" => ("registry.suse.com", "bci/bci-base")
    | "opensuse-leap" => (registry, "opensuse/leap")
    | "opensuse-tumbleweed" => (registry, "opensuse/tumbleweed")
    | _ => (registry, "opensuse/tumbleweed")
  fmt.Sprintf "%s/%s:%s" [registryAndImage.1, registryAndImage.2, version]

/-! ## Operation graphs -/

namespace llb

/-- Image resolution mode; the code only uses `llb.ResolveModeDefault`. -/
inductive ResolveMode where
  | Default
  | ForcePull
  | PreferLocal
  deriving DecidableEq, Repr

/-- The proxy settings of `llb.WithProxy`. -/
structure ProxyEnv where
  HTTPProxy : String
  HTTPSProxy : String
  FTPProxy : String
  NoProxy : String
  AllProxy : String
  deriving DecidableEq, Repr

/-- The run options the code passes to `Run`: the `llb.AddEnv` bindings in
order, the script of `buildkit.Sh`, and the proxy of `llb.WithProxy`. -/
structure RunOptions where
  env : List (String × String)
  sh : String
  proxy : ProxyEnv
  deriving DecidableEq, Repr

/-- The operation graph behind an `llb.State`, over handles `α` of the states
that the caller supplies.

* `Given h`: a state of the configuration;
* `Image ref mode`: `llb.Image(ref, mode)`;
* `Scratch`: `llb.Scratch()`;
* `RunMount root opts target source`:
  `root.Run(opts...).AddMount(target, source)`, the state of the mount after
  the run;
* `Rm s path`: `s.File(llb.Rm(path))`;
* `Copy dst src from to`: `dst.File(llb.Copy(src, from, to))`;
* `DiffOp lower upper`: the vertex that `llb.Diff` builds;
* `MergeOp inputs`: the vertex that `llb.Merge` builds.

`Scratch` is the one state without an output. -/
inductive State (α : Type) where
  | Given (h : α)
  | Image (ref : String) (mode : ResolveMode)
  | Scratch
  | RunMount (root : State α) (opts : RunOptions) (target : String) (source : State α)
  | Rm (s : State α) (path : String)
  | Copy (dst : State α) (src : State α) (srcPath : String) (destPath : String)
  | DiffOp (lower : State α) (upper : State α)
  | MergeOp (inputs : List (State α))

/-- Whether the state has no output, as `llb.Scratch()`. -/
def State.isScratch {α : Type} : State α → Bool
  | .Scratch => true
  | _ => false

/-- The client function `llb.Merge(inputs)`: scratch inputs are dropped; a
merge of scratch inputs only is scratch, a merge with one input left is that
input, and otherwise a merge vertex over the inputs left is built. -/
def Merge {α : Type} (inputs : List (State α)) : State α :=
  match inputs.filter (fun input => !input.isScratch) with
  | [] => .Scratch
  | [input] => input
  | filteredInputs => .MergeOp filteredInputs

/-- The client function `llb.Diff(lower, upper)`: the difference from scratch
is the upper state (scratch when the upper state is scratch too), and
otherwise a diff vertex is built. -/
def Diff {α : Type} (lower upper : State α) : State α :=
  if lower.isScratch then (if upper.isScratch then .Scratch else upper)
  else .DiffOp lower upper

/-- A state that the caller supplies, as far as the code and the client
functions tell states apart: scratch, or a state with an output. -/
inductive Supplied (α : Type) where
  | Scratch
  | Output (h : α)

/-- The graph of a supplied state. -/
def Supplied.toState {α : Type} : Supplied α → State α
  | .Scratch => .Scratch
  | .Output h => .Given h

/-- Whether the node is the output of a run. -/
def State.isRun {α : Type} : State α → Bool
  | .RunMount _ _ _ _ => true
  | _ => false

/-- The direct operands of every diff and every merge vertex of a graph. -/
def State.diffMergeOperands {α : Type} : State α → List (State α)
  | .Given _ => []
  | .Image _ _ => []
  | .Scratch => []
  | .RunMount root _ _ source => root.diffMergeOperands ++ source.diffMergeOperands
  | .Rm s _ => s.diffMergeOperands
  | .Copy dst src _ _ => dst.diffMergeOperands ++ src.diffMergeOperands
  | .DiffOp lower upper => lower :: upper :: (lower.diffMergeOperands ++ upper.diffMergeOperands)
  | .MergeOp inputs => inputs ++ operandsOfAll inputs
where
  /-- The operands found inside each graph of a list. -/
  operandsOfAll {α : Type} : List (State α) → List (State α)
    | [] => []
    | x :: xs => x.diffMergeOperands ++ operandsOfAll xs

/-- The nodes of a graph that take the output of a run as a direct input. -/
def State.runConsumers {α : Type} : State α → List (State α)
  | .Given _ => []
  | .Image _ _ => []
  | .Scratch => []
  | .RunMount root opts target source =>
    (if root.isRun || source.isRun then [.RunMount root opts target source] else [])
      ++ root.runConsumers ++ source.runConsumers
  | .Rm s path => (if s.isRun then [.Rm s path] else []) ++ s.runConsumers
  | .Copy dst src a b =>
    (if dst.isRun || src.isRun then [.Copy dst src a b] else [])
      ++ dst.runConsumers ++ src.runConsumers
  | .DiffOp lower upper =>
    (if lower.isRun || upper.isRun then [.DiffOp lower upper] else [])
      ++ lower.runConsumers ++ upper.runConsumers
  | .MergeOp inputs =>
    (if inputs.any State.isRun then [.MergeOp inputs] else []) ++ consumersOfAll inputs
where
  /-- The consumers found inside each graph of a list. -/
  consumersOfAll {α : Type} : List (State α) → List (State α)
    | [] => []
    | x :: xs => x.runConsumers ++ consumersOfAll xs

end llb

/-! ## Data model -/

/-- Go `error`, by its message. -/
abbrev Error := String

/-- The bytes of a file read back from a state. -/
abbrev Bytes := String

/-- The type `unversioned.UpdatePackage`. -/
structure UpdatePackage where
  Name : String
  InstalledVersion : String
  FixedVersion : String
  VulnerabilityID : String
  deriving DecidableEq, Repr

/-- The type `unversioned.UpdatePackages`. -/
abbrev UpdatePackages := List UpdatePackage

/-- The type `unversioned.UpdateManifest`: the updates and the metadata of the image. -/
structure UpdateManifest where
  OSType : String
  OSVersion : String
  Arch : String
  Updates : UpdatePackages
  deriving DecidableEq, Repr

/-- The type `VersionComparer` of the package. -/
structure VersionComparer where
  IsValid : String → Bool
  LessThan : String → String → Bool

/-- The fields of `buildkit.Config` that the code reads. `PatchedConfigData`
is `none` for a Go `nil`. -/
structure Config (α : Type) where
  ImageState : llb.Supplied α
  PatchedImageState : llb.Supplied α
  PatchedConfigData : Option Bytes

/-- The type `rpmZypperManager` of `zypper_rpm.go`. -/
structure rpmZypperManager (α : Type) where
  config : Config α
  workingFolder : String
  osType : String
  osVersion : String

/-- What the code uses of the rest of the repository and of the build
engine. `validateRPMPackageVersions` returns a Go pair `([]string, error)`,
each component `none` for `nil`. -/
structure Deps (α : Type) where
  rpmLibPath : String
  rpmNDB : String
  GetProxy : llb.ProxyEnv
  isValidRPMVersion : String → Bool
  isLessThanRPMVersion : String → String → Bool
  GetUniqueLatestUpdates : UpdatePackages → VersionComparer → Bool → Except Error UpdatePackages
  ExtractFileFromState : llb.State α → String → Except Error Bytes
  validateRPMPackageVersions :
    UpdatePackages → VersionComparer → Bytes → Bool → Option (List String) × Option Error

/-- The requests that leave the package manager. -/
inductive Request (α : Type) where
  | ToolingImage (name : String)
  | ExtractFile (st : llb.State α) (path : String)

/-- A Go result `(*llb.State, []byte, error)`, `none` for `nil`. -/
structure ChrootResult (α : Type) where
  state : Option (llb.State α)
  resultBytes : Option Bytes
  err : Option Error

/-- A Go result `(*llb.State, []string, error)`, `none` for `nil`. -/
structure InstallResult (α : Type) where
  state : Option (llb.State α)
  errPkgs : Option (List String)
  err : Option Error

/-! ## The update step -/

/-- The mount point of the image to patch inside the tooling container. -/
def chrootDir : String := "/tmp/rootfs"

/-- The path of the manifest inside the mounted image. -/
def manifestFile : String := "/tmp/manifest"

/-- The script of `zypperChrootInstallUpdates` before formatting. -/
def zypperCmdTemplate : String :=
  "\n" ++
  "                if ! [[ -e \"$\x7bCOPA_RPM_DB_FILE\x7d\" ]]; then echo \"RPM DB not found\"; exit 1; fi\n" ++
  "                zypper --non-interactive refresh\n" ++
  "                zypper --non-interactive --installroot \"$\x7bCOPA_CHROOT_DIR\x7d\" up --no-recommends %s\n" ++
  "                zypper --installroot \"$\x7bCOPA_CHROOT_DIR\x7d\" clean --all\n" ++
  "                rm -rf \"$\x7bCOPA_CHROOT_DIR\x7d\"/var/cache/zypp/* \"$\x7bCOPA_CHROOT_DIR\x7d\"/var/log/zypp/*\n" ++
  "                rm -rf \"$\x7bCOPA_CHROOT_DIR\x7d\"/var/tmp/* \"$\x7bCOPA_CHROOT_DIR\x7d\"/usr/share/doc/packages/*\n" ++
  "                rpm --dbpath \"$\x7bCOPA_CHROOT_DIR\x7d\"/var/lib/rpm -qa --qf=\"%%\x7bNAME\x7d\\t%%\x7bVERSION\x7d-%%\x7bRELEASE\x7d\\t%%\x7bARCH\x7d\\n\" %s > \"$\x7bCOPA_MANIFEST_FILE\x7d\"\n" ++
  "\t"

/-- The package list of the script: the names of the updates, in order,
separated by single spaces. -/
def pkgsToUpdate (updates : UpdatePackages) : String :=
  let pkgStrings := updates.foldl (fun acc u => acc ++ [u.Name]) ([] : List String)
  strings.Join pkgStrings " "

/-- The script that the tooling container runs. -/
def zypperCmd (updates : UpdatePackages) : String :=
  fmt.Sprintf zypperCmdTemplate [pkgsToUpdate updates, pkgsToUpdate updates]

/-- The state `downloaded` as first assigned in `zypperChrootInstallUpdates`:
the image mounted at `chrootDir` after the script has run in the tooling
container. -/
def rpmZypperManager.updateStep {α : Type} (rm : rpmZypperManager α) (deps : Deps α)
    (updates : UpdatePackages) (toolImage : String) : llb.State α :=
  let toolingBase := llb.State.Image toolImage llb.ResolveMode.Default
  llb.State.RunMount toolingBase
    { env := [("COPA_CHROOT_DIR", chrootDir),
              ("COPA_RPM_DB_FILE", path.Join [chrootDir, deps.rpmLibPath, deps.rpmNDB]),
              ("COPA_MANIFEST_FILE", path.Join [chrootDir, manifestFile])],
      sh := zypperCmd updates,
      proxy := deps.GetProxy }
    chrootDir rm.config.ImageState.toState

/-- The method `rpmZypperManager.zypperChrootInstallUpdates` of `zypper_rpm.go`, with the
requests it issues. -/
def rpmZypperManager.zypperChrootInstallUpdates {α : Type} (rm : rpmZypperManager α)
    (deps : Deps α) (updates : UpdatePackages) (toolImage : String) :
    ChrootResult α × List (Request α) :=
  let downloaded := rm.updateStep deps updates toolImage
  let trace := [Request.ExtractFile downloaded manifestFile]
  match deps.ExtractFileFromState downloaded manifestFile with
  | .error err => (⟨none, none, some err⟩, trace)
  | .ok resultBytes =>
    let withoutManifest := llb.State.Rm downloaded manifestFile
    let diffBase := llb.Diff rm.config.ImageState.toState withoutManifest
    let downloaded := llb.Merge [diffBase, withoutManifest]
    if rm.config.PatchedConfigData.isSome then
      let prevPatchDiff :=
        llb.Diff rm.config.ImageState.toState rm.config.PatchedImageState.toState
      let combinedPatch := llb.Merge [prevPatchDiff, downloaded]
      let squashedPatch := llb.State.Copy .Scratch combinedPatch "/" "/"
      let completePatchMerge := llb.Merge [rm.config.ImageState.toState, squashedPatch]
      (⟨some completePatchMerge, some resultBytes, none⟩, trace)
    else
      let diff := llb.Diff rm.config.ImageState.toState downloaded
      let merged := llb.Merge [.Scratch, rm.config.ImageState.toState, diff]
      (⟨some merged, some resultBytes, none⟩, trace)

/-- The method `rpmZypperManager.InstallUpdates` of `zypper_rpm.go`, with the requests it
issues; `manifest` is `none` for a Go `nil`. -/
def rpmZypperManager.InstallUpdates {α : Type} (rm : rpmZypperManager α) (deps : Deps α)
    (manifest : Option UpdateManifest) (ignoreErrors : Bool) :
    InstallResult α × List (Request α) :=
  match manifest with
  | none => (⟨none, none, some "image manifest is nil"⟩, [])
  | some manifest =>
    let rpmComparer : VersionComparer := ⟨deps.isValidRPMVersion, deps.isLessThanRPMVersion⟩
    match deps.GetUniqueLatestUpdates manifest.Updates rpmComparer ignoreErrors with
    | .error err => (⟨none, none, some err⟩, [])
    | .ok updates =>
      if updates.length = 0 then
        (⟨some rm.config.ImageState.toState, none, none⟩, [])
      else
        let toolImageName := getZypperToolingImageName rm.osType rm.osVersion
        let chroot := rm.zypperChrootInstallUpdates deps updates toolImageName
        let trace := Request.ToolingImage toolImageName :: chroot.2
        match chroot.1.err with
        | some err => (⟨none, none, some err⟩, trace)
        | none =>
          let validated :=
            deps.validateRPMPackageVersions updates rpmComparer
              (chroot.1.resultBytes.getD "") ignoreErrors
          match validated.2 with
          | some err => (⟨none, none, some err⟩, trace)
          | none => (⟨chroot.1.state, validated.1, none⟩, trace)

/-- The method `rpmZypperManager.GetPackageType` of `zypper_rpm.go`. -/
def rpmZypperManager.GetPackageType {α : Type} (_rm : rpmZypperManager α) : String := "rpm"

/-! ## Contents of states

The reading of a graph that the composition properties are stated in: the
content of a state is a map from paths to file contents, a diff vertex keeps
the entries of the upper state that differ from the lower, a merge vertex
overlays its inputs from left to right, `Rm` erases one path, and copying the
root of a state onto another overlays it. What a run produces is up to the
engine. -/

/-- The content of a state: the file found at each path. -/
abbrev FS := String → Option String

/-- The content of `llb.Scratch()`. -/
def FS.empty : FS := fun _ => none

/-- The content given by a list of entries, earlier entries taking precedence. -/
def FS.ofList : List (String × String) → FS
  | [] => FS.empty
  | (k, v) :: rest => fun p => if p = k then some v else FS.ofList rest p

/-- The entries of `b` that differ from `a`. -/
def FS.diff (a b : FS) : FS := fun p => if b p = a p then none else b p

/-- The entries of `upper` over those of `lower`. -/
def FS.overlay (lower upper : FS) : FS := fun p =>
  match upper p with
  | some c => some c
  | none => lower p

/-- The inputs overlaid from left to right. -/
def FS.merge (inputs : List FS) : FS := inputs.foldl FS.overlay FS.empty

/-- The state without the file at `path`. -/
def FS.rm (s : FS) (path : String) : FS := fun p => if p = path then none else s p

/-- What the engine decides: the content of the states of the configuration,
the content of an image, and the content of a mount after a run (from the
content of the root of the container, the run options, the mount point and the
content mounted). -/
structure Engine (α : Type) where
  given : α → FS
  image : String → llb.ResolveMode → FS
  run : FS → llb.RunOptions → String → FS → FS

/-- The content of the state that a graph denotes. Only copies of the whole
tree (`"/"` to `"/"`), the one form that the code issues, are interpreted; any
other copy leaves the destination as it is. -/
def eval {α : Type} (E : Engine α) : llb.State α → FS
  | .Given h => E.given h
  | .Image ref mode => E.image ref mode
  | .Scratch => FS.empty
  | .RunMount root opts target source => E.run (eval E root) opts target (eval E source)
  | .Rm s path => FS.rm (eval E s) path
  | .Copy dst src srcPath destPath =>
    if srcPath = "/" ∧ destPath = "/" then FS.overlay (eval E dst) (eval E src) else eval E dst
  | .DiffOp lower upper => FS.diff (eval E lower) (eval E upper)
  | .MergeOp inputs => FS.merge (evalAll E inputs)
where
  /-- The contents of the states of a list. -/
  evalAll {α : Type} (E : Engine α) : List (llb.State α) → List FS
    | [] => []
    | x :: xs => eval E x :: evalAll E xs

/-! ## Sample inputs

Concrete collaborators, images and managers on which the statements below are
instantiated. -/

/-- A sample validity check: a nonempty string of digits and dots. -/
def sampleIsValid (v : String) : Bool :=
  v.data ≠ [] && v.data.all (fun c => c.isDigit || c = '.')

/-- A sample version order: the order of the character lists. -/
def sampleLessThan (a b : String) : Bool := decide (a.data < b.data)

/-- Insertion into a reduced set: an update replaces the entry of the same
name when its fixed version is higher. -/
def sampleInsert (cmp : VersionComparer) (u : UpdatePackage) : UpdatePackages → UpdatePackages
  | [] => [u]
  | v :: rest =>
    if v.Name = u.Name then
      (if cmp.LessThan v.FixedVersion u.FixedVersion then u :: rest else v :: rest)
    else v :: sampleInsert cmp u rest

/-- The loop of the sample reducer over the updates still to read. -/
def sampleReduceFrom (cmp : VersionComparer) (ignoreErrors : Bool) :
    UpdatePackages → UpdatePackages → Except Error UpdatePackages
  | [], acc => .ok acc
  | u :: rest, acc =>
    if cmp.IsValid u.FixedVersion then
      sampleReduceFrom cmp ignoreErrors rest (sampleInsert cmp u acc)
    else if ignoreErrors then sampleReduceFrom cmp ignoreErrors rest acc
    else .error ("invalid version " ++ u.FixedVersion ++ " found for package " ++ u.Name)

/-- A sample reducer: one entry per name with the highest fixed version; an
invalid version fails the reduction, or is skipped when errors are ignored. -/
def sampleReducer (updates : UpdatePackages) (cmp : VersionComparer) (ignoreErrors : Bool) :
    Except Error UpdatePackages :=
  sampleReduceFrom cmp ignoreErrors updates []

/-- The pieces of a character list between occurrences of `sep` (`cur` is the
piece being read, reversed). -/
def sampleFields (sep : Char) : List Char → List Char → List (List Char)
  | [], cur => [cur.reverse]
  | c :: rest, cur =>
    if c = sep then cur.reverse :: sampleFields sep rest [] else sampleFields sep rest (c :: cur)

/-- The name and version of each well-formed line `name<TAB>version<TAB>arch`. -/
def sampleInstalled (manifest : Bytes) : List (String × String) :=
  (sampleFields '\n' manifest.data []).filterMap (fun line =>
    match sampleFields '\t' line [] with
    | [name, version, _] => some (⟨name⟩, ⟨version⟩)
    | _ => none)

/-- The requested packages that the manifest does not show at the requested
version or above. -/
def sampleFailed (updates : UpdatePackages) (cmp : VersionComparer) (manifest : Bytes) :
    List String :=
  (updates.filter (fun u =>
    match (sampleInstalled manifest).lookup u.Name with
    | none => true
    | some v => cmp.LessThan v u.FixedVersion)).map (fun u => u.Name)

/-- A sample validator: no list and no error when every package is verified;
otherwise the failed names, with an error unless errors are ignored. -/
def sampleValidate (updates : UpdatePackages) (cmp : VersionComparer) (manifest : Bytes)
    (ignoreErrors : Bool) : Option (List String) × Option Error :=
  let failed := sampleFailed updates cmp manifest
  if failed = [] then (none, none)
  else if ignoreErrors then (some failed, none)
  else (some failed, some ("packages not upgraded: " ++ strings.Join failed ", "))

/-- The manifest that the sample engine reads back. -/
def sampleManifest : Bytes := "zlib\t1.2.11\tx86_64\ncurl\t8.0.1\tx86_64\n"

/-- Sample collaborators over states given by their content. -/
def sampleDeps : Deps FS :=
  { rpmLibPath := "/var/lib/rpm",
    rpmNDB := "Packages.db",
    GetProxy := ⟨"", "", "", "", ""⟩,
    isValidRPMVersion := sampleIsValid,
    isLessThanRPMVersion := sampleLessThan,
    GetUniqueLatestUpdates := sampleReducer,
    ExtractFileFromState := fun _ _ => .ok sampleManifest,
    validateRPMPackageVersions := sampleValidate }

/-- The content of the sample base image. -/
def sampleBase : FS :=
  FS.ofList [("/usr/lib64/libz.so.1", "zlib-1.2.11"), ("/usr/lib64/libcurl.so.4", "curl-7.79.1")]

/-- The content of the sample image after an earlier patch of zlib. -/
def samplePatched : FS :=
  FS.ofList [("/usr/lib64/libz.so.1", "zlib-1.2.13"), ("/usr/lib64/libcurl.so.4", "curl-7.79.1")]

/-- A sample engine: the given states are their content, and a run upgrades
curl in the mounted image and writes the manifest. -/
def sampleEngine : Engine FS :=
  { given := fun fs => fs,
    image := fun _ _ => FS.empty,
    run := fun _ _ _ source =>
      FS.overlay source
        (FS.ofList [("/usr/lib64/libcurl.so.4", "curl-8.0.1"), ("/tmp/manifest", sampleManifest)]) }

/-- A manager of an image that has not been patched before. -/
def sampleFirstPatch : rpmZypperManager FS :=
  { config := { ImageState := .Output sampleBase, PatchedImageState := .Scratch,
                PatchedConfigData := none },
    workingFolder := "/tmp/copa", osType := "sles", osVersion := "15.7" }

/-- A manager of an image that has been patched before. -/
def sampleRepatch : rpmZypperManager FS :=
  { config := { ImageState := .Output sampleBase, PatchedImageState := .Output samplePatched,
                PatchedConfigData := some "patched" },
    workingFolder := "/tmp/copa", osType := "sles", osVersion := "15.7" }

/-- A sample request: upgrade curl. -/
def sampleUpdates : UpdatePackages := [⟨"curl", "7.79.1", "8.0.1", "CVE-2023-0001"⟩]

/-! ## Tooling image selection -/

/-- C1: for every version string, the tooling image of `sles` is
`registry.suse.com/bci/bci-base`, that of `opensuse-leap` is
`registry.opensuse.org/opensuse/leap` and that of `opensuse-tumbleweed` is
`registry.opensuse.org/opensuse/tumbleweed`, each tagged with the version as
it is given. -/
theorem getZypperToolingImageName_known (v : String) :
    getZypperToolingImageName "sles" v = "registry.suse.com/bci/bci-base:" ++ v ∧
    getZypperToolingImageName "opensuse-leap" v
      = "registry.opensuse.org/opensuse/leap:" ++ v ∧
    getZypperToolingImageName "opensuse-tumbleweed" v
      = "registry.opensuse.org/opensuse/tumbleweed:" ++ v := by
  refine ⟨?_, ?_, ?_⟩ <;>
    · simp [getZypperToolingImageName, fmt.Sprintf, fmt.expand]
      rfl

/-- C2: for every distribution other than `sles`, `opensuse-leap` and
`opensuse-tumbleweed` and every version, the tooling image is the tumbleweed
image tagged with the version, the same as for `opensuse-tumbleweed`. -/
theorem getZypperToolingImageName_unknown (osType v : String)
    (h1 : osType ≠ "sles") (h2 : osType ≠ "opensuse-leap")
    (h3 : osType ≠ "opensuse-tumbleweed") :
    getZypperToolingImageName osType v = "registry.opensuse.org/opensuse/tumbleweed:" ++ v ∧
    getZypperToolingImageName osType v = getZypperToolingImageName "opensuse-tumbleweed" v := by
  have hdef : getZypperToolingImageName osType v
      = fmt.Sprintf "%s/%s:%s" ["registry.opensuse.org", "opensuse/tumbleweed", v] := by
    unfold getZypperToolingImageName
    split
    · exact absurd rfl h1
    · exact absurd rfl h2
    · exact absurd rfl h3
    · rfl
  have htw : getZypperToolingImageName "opensuse-tumbleweed" v
      = fmt.Sprintf "%s/%s:%s" ["registry.opensuse.org", "opensuse/tumbleweed", v] := by
    simp [getZypperToolingImageName]
  have htext : fmt.Sprintf "%s/%s:%s" ["registry.opensuse.org", "opensuse/tumbleweed", v]
      = "registry.opensuse.org/opensuse/tumbleweed:" ++ v := by
    simp [fmt.Sprintf, fmt.expand]
    rfl
  exact ⟨hdef.trans htext, hdef.trans htw.symm⟩

/-- C2 at the distribution `unknown-distro` and the version `1.0`. -/
theorem getZypperToolingImageName_unknown_witness :
    "unknown-distro" ≠ "sles" ∧ "unknown-distro" ≠ "opensuse-leap" ∧
    "unknown-distro" ≠ "opensuse-tumbleweed" ∧
    getZypperToolingImageName "unknown-distro" "1.0"
      = "registry.opensuse.org/opensuse/tumbleweed:" ++ "1.0" ∧
    getZypperToolingImageName "unknown-distro" "1.0"
      = getZypperToolingImageName "opensuse-tumbleweed" "1.0" :=
  ⟨by decide, by decide, by decide,
    getZypperToolingImageName_unknown "unknown-distro" "1.0" (by decide) (by decide) (by decide)⟩

/-! ## The command text -/

/-- The loop that collects the names is a map. -/
theorem pkgsToUpdate_eq (updates : UpdatePackages) :
    pkgsToUpdate updates = strings.Join (updates.map (fun u => u.Name)) " " := by
  have h : ∀ (us : UpdatePackages) (acc : List String),
      us.foldl (fun acc u => acc ++ [u.Name]) acc = acc ++ us.map (fun u => u.Name) := by
    intro us
    induction us with
    | nil => intro acc; simp
    | cons u us ih => intro acc; simp [ih]
  simp [pkgsToUpdate, h]

set_option maxRecDepth 100000 in
/-- The template formatted with a package list: the list stands after
`up --no-recommends ` and after the query format, and the output of the query
is redirected to `COPA_MANIFEST_FILE`. -/
theorem Sprintf_zypperCmdTemplate (l : String) :
    fmt.Sprintf zypperCmdTemplate [l, l] =
      "\n                if ! [[ -e \"$\x7bCOPA_RPM_DB_FILE\x7d\" ]]; then echo \"RPM DB not found\"; exit 1; fi\n                zypper --non-interactive refresh\n                zypper --non-interactive --installroot \"$\x7bCOPA_CHROOT_DIR\x7d\" up --no-recommends "
      ++ l ++
      "\n                zypper --installroot \"$\x7bCOPA_CHROOT_DIR\x7d\" clean --all\n                rm -rf \"$\x7bCOPA_CHROOT_DIR\x7d\"/var/cache/zypp/* \"$\x7bCOPA_CHROOT_DIR\x7d\"/var/log/zypp/*\n                rm -rf \"$\x7bCOPA_CHROOT_DIR\x7d\"/var/tmp/* \"$\x7bCOPA_CHROOT_DIR\x7d\"/usr/share/doc/packages/*\n                rpm --dbpath \"$\x7bCOPA_CHROOT_DIR\x7d\"/var/lib/rpm -qa --qf=\"%\x7bNAME\x7d\\t%\x7bVERSION\x7d-%\x7bRELEASE\x7d\\t%\x7bARCH\x7d\\n\" "
      ++ l ++
      " > \"$\x7bCOPA_MANIFEST_FILE\x7d\"\n\t" := by
  apply String.ext
  simp only [String.data_append, List.append_assoc]
  rfl

set_option maxRecDepth 100000 in
/-- C10, as the code has it: for every update set the command is the fixed
text of the template with the package names, joined by single spaces and
otherwise unchanged, standing bare after `up --no-recommends ` and after the
query format of `rpm -qa`. -/
theorem zypperCmd_text (updates : UpdatePackages) :
    zypperCmd updates =
      "\n                if ! [[ -e \"$\x7bCOPA_RPM_DB_FILE\x7d\" ]]; then echo \"RPM DB not found\"; exit 1; fi\n                zypper --non-interactive refresh\n                zypper --non-interactive --installroot \"$\x7bCOPA_CHROOT_DIR\x7d\" up --no-recommends "
      ++ strings.Join (updates.map (fun u => u.Name)) " " ++
      "\n                zypper --installroot \"$\x7bCOPA_CHROOT_DIR\x7d\" clean --all\n                rm -rf \"$\x7bCOPA_CHROOT_DIR\x7d\"/var/cache/zypp/* \"$\x7bCOPA_CHROOT_DIR\x7d\"/var/log/zypp/*\n                rm -rf \"$\x7bCOPA_CHROOT_DIR\x7d\"/var/tmp/* \"$\x7bCOPA_CHROOT_DIR\x7d\"/usr/share/doc/packages/*\n                rpm --dbpath \"$\x7bCOPA_CHROOT_DIR\x7d\"/var/lib/rpm -qa --qf=\"%\x7bNAME\x7d\\t%\x7bVERSION\x7d-%\x7bRELEASE\x7d\\t%\x7bARCH\x7d\\n\" "
      ++ strings.Join (updates.map (fun u => u.Name)) " " ++
      " > \"$\x7bCOPA_MANIFEST_FILE\x7d\"\n\t" := by
  rw [zypperCmd, pkgsToUpdate_eq]
  exact Sprintf_zypperCmdTemplate _

set_option maxRecDepth 100000 in
/-- C10 fails for the package name `vim; reboot`: the name holds a semicolon
and a blank, and it stands in the command as it is, without quotes, in both
places. -/
theorem zypperCmd_metacharacters_unquoted :
    ';' ∈ "vim; reboot".data ∧ ' ' ∈ "vim; reboot".data ∧
    zypperCmd [⟨"vim; reboot", "9.0", "9.1", "CVE-2023-0002"⟩] =
      "\n                if ! [[ -e \"$\x7bCOPA_RPM_DB_FILE\x7d\" ]]; then echo \"RPM DB not found\"; exit 1; fi\n                zypper --non-interactive refresh\n                zypper --non-interactive --installroot \"$\x7bCOPA_CHROOT_DIR\x7d\" up --no-recommends vim; reboot\n                zypper --installroot \"$\x7bCOPA_CHROOT_DIR\x7d\" clean --all\n                rm -rf \"$\x7bCOPA_CHROOT_DIR\x7d\"/var/cache/zypp/* \"$\x7bCOPA_CHROOT_DIR\x7d\"/var/log/zypp/*\n                rm -rf \"$\x7bCOPA_CHROOT_DIR\x7d\"/var/tmp/* \"$\x7bCOPA_CHROOT_DIR\x7d\"/usr/share/doc/packages/*\n                rpm --dbpath \"$\x7bCOPA_CHROOT_DIR\x7d\"/var/lib/rpm -qa --qf=\"%\x7bNAME\x7d\\t%\x7bVERSION\x7d-%\x7bRELEASE\x7d\\t%\x7bARCH\x7d\\n\" vim; reboot > \"$\x7bCOPA_MANIFEST_FILE\x7d\"\n\t" := by
  refine ⟨by decide, by decide, by decide⟩

/-! ## The client functions, read as contents -/

/-- Overlaying a state on nothing gives the state. -/
theorem FS.empty_overlay (a : FS) : FS.overlay FS.empty a = a := by
  funext p
  simp only [FS.overlay, FS.empty]
  cases a p <;> rfl

/-- The difference from nothing is the whole state. -/
theorem FS.empty_diff (a : FS) : FS.diff FS.empty a = a := by
  funext p
  simp only [FS.diff, FS.empty]
  cases a p <;> simp

/-- A scratch state is the graph `Scratch`. -/
theorem llb.State.eq_Scratch_of_isScratch {α : Type} (s : llb.State α)
    (h : s.isScratch = true) : s = .Scratch := by
  cases s <;> simp [llb.State.isScratch] at h
  rfl

/-- Dropping the scratch inputs does not change what an overlay of the inputs
gives. -/
theorem foldl_overlay_filter {α : Type} (E : Engine α) (inputs : List (llb.State α)) :
    ∀ acc : FS,
      (eval.evalAll E (inputs.filter (fun input => !input.isScratch))).foldl FS.overlay acc
        = (eval.evalAll E inputs).foldl FS.overlay acc := by
  induction inputs with
  | nil => intro acc; rfl
  | cons x xs ih =>
    intro acc
    cases hx : x.isScratch with
    | true =>
      have hs := llb.State.eq_Scratch_of_isScratch x hx
      subst hs
      simp only [List.filter, llb.State.isScratch, Bool.not_true, eval.evalAll, eval,
        List.foldl]
      exact ih acc
    | false =>
      simp only [List.filter, hx, Bool.not_false, eval.evalAll, List.foldl]
      exact ih (FS.overlay acc (eval E x))

/-- The content of `llb.Merge(inputs)` is the inputs overlaid from left to
right. -/
theorem eval_Merge {α : Type} (E : Engine α) (inputs : List (llb.State α)) :
    eval E (llb.Merge inputs) = FS.merge (eval.evalAll E inputs) := by
  have hfilter := foldl_overlay_filter E inputs FS.empty
  unfold FS.merge
  rw [← hfilter]
  unfold llb.Merge
  cases hf : inputs.filter (fun input => !input.isScratch) with
  | nil => rfl
  | cons x rest =>
    cases rest with
    | nil =>
      simp only [eval.evalAll, List.foldl]
      exact (FS.empty_overlay (eval E x)).symm
    | cons y rest => simp only [eval, FS.merge]

/-- The content of `llb.Diff(lower, upper)` is the entries of the upper state
that differ from the lower. -/
theorem eval_Diff {α : Type} (E : Engine α) (lower upper : llb.State α) :
    eval E (llb.Diff lower upper) = FS.diff (eval E lower) (eval E upper) := by
  unfold llb.Diff
  cases hl : lower.isScratch with
  | false => simp [eval]
  | true =>
    have hs := llb.State.eq_Scratch_of_isScratch lower hl
    subst hs
    cases hu : upper.isScratch with
    | false => simp [eval, FS.empty_diff]
    | true =>
      have hs := llb.State.eq_Scratch_of_isScratch upper hu
      subst hs
      simp [eval, FS.empty_diff]

/-! ## Layer composition: the graphs -/

/-- The update step is the output of a run. -/
theorem updateStep_isRun {α : Type} (rm : rpmZypperManager α) (deps : Deps α)
    (updates : UpdatePackages) (toolImage : String) :
    (rm.updateStep deps updates toolImage).isRun = true := rfl

/-- The update step has an output. -/
theorem updateStep_isScratch {α : Type} (rm : rpmZypperManager α) (deps : Deps α)
    (updates : UpdatePackages) (toolImage : String) :
    (rm.updateStep deps updates toolImage).isScratch = false := rfl

/-- Neither the tooling image nor the mounted image has operands of a diff or
merge vertex, and the run consumes no other run. -/
theorem updateStep_leaf {α : Type} (rm : rpmZypperManager α) (deps : Deps α)
    (updates : UpdatePackages) (toolImage : String) :
    (rm.updateStep deps updates toolImage).diffMergeOperands = [] ∧
    (rm.updateStep deps updates toolImage).runConsumers = [] := by
  cases hbase : rm.config.ImageState <;>
    simp [rpmZypperManager.updateStep, llb.State.diffMergeOperands, llb.State.runConsumers,
      llb.State.isRun, llb.Supplied.toState, hbase]

/-- C4, on the code: with a prior patch present (base and the prior patch
being states with an output), if reading the manifest back fails the error is
returned, and otherwise the graph returned is
`Merge([base, Copy-onto-Scratch(Merge([Diff(base, priorPatch), D]))])` where
`D = Merge([Diff(base, executed), executed])` holds the whole executed state
(the update step's output without the manifest); this graph is not the one
whose second operand is `Diff(base, executed)`. -/
theorem repatch_graph_second_operand_is_full_state {α : Type}
    (base prior : α) (data : Bytes) (workingFolder osType osVersion : String) (deps : Deps α)
    (updates : UpdatePackages) (toolImage : String) :
    let rm : rpmZypperManager α :=
      ⟨⟨.Output base, .Output prior, some data⟩, workingFolder, osType, osVersion⟩
    let executed := llb.State.Rm (rm.updateStep deps updates toolImage) manifestFile
    let combined (second : llb.State α) : llb.State α :=
      .MergeOp [.Given base,
        .Copy .Scratch (.MergeOp [.DiffOp (.Given base) (.Given prior), second]) "/" "/"]
    match deps.ExtractFileFromState (rm.updateStep deps updates toolImage) manifestFile with
    | .error err =>
      (rm.zypperChrootInstallUpdates deps updates toolImage).1 = ⟨none, none, some err⟩
    | .ok resultBytes =>
      (rm.zypperChrootInstallUpdates deps updates toolImage).1
        = ⟨some (combined (.MergeOp [.DiffOp (.Given base) executed, executed])),
            some resultBytes, none⟩ ∧
      combined (.MergeOp [.DiffOp (.Given base) executed, executed])
        ≠ combined (.DiffOp (.Given base) executed) ∧
      combined (.DiffOp (.Given base) executed)
        = llb.Merge [.Given base,
            .Copy .Scratch
              (llb.Merge [llb.Diff (.Given base) (.Given prior),
                llb.Diff (.Given base) executed]) "/" "/"] := by
  intro rm executed combined
  cases h : deps.ExtractFileFromState (rm.updateStep deps updates toolImage) manifestFile with
  | error err => simp [rpmZypperManager.zypperChrootInstallUpdates, h]
  | ok resultBytes =>
    simp [rpmZypperManager.zypperChrootInstallUpdates, h, rm, executed, combined, llb.Merge,
      llb.Diff, llb.State.isScratch, llb.Supplied.toState, List.filter]

/-- C5 fails on the sample image without a prior patch: the graph returned is
neither what `llb.Merge([Scratch, base, llb.Diff(base, executed)])` builds nor
the merge vertex with the three operands `Scratch`, `base` and
`Diff(base, executed)`. -/
theorem firstPatch_graph_not_direct_diff :
    sampleFirstPatch.config.PatchedConfigData = none ∧
    (sampleFirstPatch.zypperChrootInstallUpdates sampleDeps sampleUpdates "tool").1.state
      ≠ some (llb.Merge [.Scratch, .Given sampleBase,
          llb.Diff (.Given sampleBase)
            (.Rm (sampleFirstPatch.updateStep sampleDeps sampleUpdates "tool") manifestFile)]) ∧
    (sampleFirstPatch.zypperChrootInstallUpdates sampleDeps sampleUpdates "tool").1.state
      ≠ some (.MergeOp [.Scratch, .Given sampleBase,
          .DiffOp (.Given sampleBase)
            (.Rm (sampleFirstPatch.updateStep sampleDeps sampleUpdates "tool") manifestFile)]) := by
  simp [rpmZypperManager.zypperChrootInstallUpdates, sampleFirstPatch, sampleDeps, llb.Merge,
    llb.Diff, llb.State.isScratch, llb.Supplied.toState, List.filter]

/-- Overlaying the whole of a state on its own difference from another state
gives the state back. -/
theorem eval_merge_diff_self {α : Type} (E : Engine α) (a b : llb.State α) :
    eval E (llb.Merge [llb.Diff a b, b]) = eval E b := by
  rw [eval_Merge]
  funext p
  simp only [eval.evalAll, eval_Diff, FS.merge, List.foldl, FS.overlay, FS.diff, FS.empty]
  cases hb : eval E b p with
  | some c => rfl
  | none => simp

/-- Taking the difference from a state to the overlay above instead of to the
state itself does not change the content of the first-patch composition. -/
theorem eval_diff_interposed {α : Type} (E : Engine α) (a b : llb.State α) :
    eval E (llb.Merge [.Scratch, a, llb.Diff a (llb.Merge [llb.Diff a b, b])])
      = eval E (llb.Merge [.Scratch, a, llb.Diff a b]) := by
  have h := eval_merge_diff_self E a b
  rw [eval_Merge, eval_Merge]
  simp only [eval.evalAll, eval_Diff, h]

/-- C5, as the code has it: without a prior patch, when the manifest is read
back, the graph returned is what
`llb.Merge([Scratch, base, llb.Diff(base, D))` builds, with
`D = llb.Merge([llb.Diff(base, executed), executed])` interposed between base
and executed (the update step's output without the manifest). Scratch inputs
being dropped, for a base with an output this is the merge vertex with the two
operands `base` and `Diff(base, D)`, `D` being the vertex
`Merge([Diff(base, executed), executed])`, and for a scratch base it is the
vertex `Merge([executed, executed])`. Read as contents, `D` is executed and
the result is that of `llb.Merge([Scratch, base, llb.Diff(base, executed)])`. -/
theorem firstPatch_graph {α : Type} (rm : rpmZypperManager α) (deps : Deps α)
    (updates : UpdatePackages) (toolImage : String) (resultBytes : Bytes)
    (hnone : rm.config.PatchedConfigData = none)
    (hread : deps.ExtractFileFromState (rm.updateStep deps updates toolImage) manifestFile
      = .ok resultBytes) :
    let base : llb.State α := rm.config.ImageState.toState
    let executed := llb.State.Rm (rm.updateStep deps updates toolImage) manifestFile
    let interposed := llb.Merge [llb.Diff base executed, executed]
    (rm.zypperChrootInstallUpdates deps updates toolImage).1
      = ⟨some (llb.Merge [.Scratch, base, llb.Diff base interposed]), some resultBytes, none⟩ ∧
    llb.Merge [.Scratch, base, llb.Diff base interposed]
      = (match rm.config.ImageState with
         | .Output h =>
           .MergeOp [.Given h,
             .DiffOp (.Given h) (.MergeOp [.DiffOp (.Given h) executed, executed])]
         | .Scratch => .MergeOp [executed, executed]) ∧
    ∀ E : Engine α,
      eval E interposed = eval E executed ∧
      eval E (llb.Merge [.Scratch, base, llb.Diff base interposed])
        = eval E (llb.Merge [.Scratch, base, llb.Diff base executed]) := by
  intro base executed interposed
  refine ⟨?_, ?_, ?_⟩
  · simp only [rpmZypperManager.zypperChrootInstallUpdates, hread, hnone]
    rfl
  · cases hbase : rm.config.ImageState <;>
      simp [base, interposed, executed, hbase, llb.Merge, llb.Diff, llb.State.isScratch,
        llb.Supplied.toState, List.filter]
  · intro E
    exact ⟨eval_merge_diff_self E base executed, eval_diff_interposed E base executed⟩

/-- C5, as the code has it, on the sample image without a prior patch: the
graph returned is the merge vertex with two operands. -/
theorem firstPatch_graph_witness :
    sampleFirstPatch.config.PatchedConfigData = none ∧
    sampleDeps.ExtractFileFromState
      (sampleFirstPatch.updateStep sampleDeps sampleUpdates "tool") manifestFile
      = .ok sampleManifest ∧
    (sampleFirstPatch.zypperChrootInstallUpdates sampleDeps sampleUpdates "tool").1.state
      = some (.MergeOp [.Given sampleBase,
          .DiffOp (.Given sampleBase)
            (.MergeOp [.DiffOp (.Given sampleBase)
                (.Rm (sampleFirstPatch.updateStep sampleDeps sampleUpdates "tool") manifestFile),
              .Rm (sampleFirstPatch.updateStep sampleDeps sampleUpdates "tool")
                manifestFile])]) ∧
    (let base : llb.State FS := sampleFirstPatch.config.ImageState.toState
     let executed :=
       llb.State.Rm (sampleFirstPatch.updateStep sampleDeps sampleUpdates "tool") manifestFile
     let interposed := llb.Merge [llb.Diff base executed, executed]
     (sampleFirstPatch.zypperChrootInstallUpdates sampleDeps sampleUpdates "tool").1
       = ⟨some (llb.Merge [.Scratch, base, llb.Diff base interposed]),
           some sampleManifest, none⟩ ∧
     llb.Merge [.Scratch, base, llb.Diff base interposed]
       = (match sampleFirstPatch.config.ImageState with
          | .Output h =>
            .MergeOp [.Given h,
              .DiffOp (.Given h) (.MergeOp [.DiffOp (.Given h) executed, executed])]
          | .Scratch => .MergeOp [executed, executed]) ∧
     ∀ E : Engine FS,
       eval E interposed = eval E executed ∧
       eval E (llb.Merge [.Scratch, base, llb.Diff base interposed])
         = eval E (llb.Merge [.Scratch, base, llb.Diff base executed])) :=
  ⟨rfl, rfl, rfl,
    firstPatch_graph sampleFirstPatch sampleDeps sampleUpdates "tool" sampleManifest rfl rfl⟩

/-- The two compositions over any run output `raw` that has no diff or merge
operands and consumes no run, for a base and a prior patch that are scratch or
given: `raw` is no operand of a diff or merge vertex, no operand is the output
of a run, the only consumer of `raw` is the removal of `manifestFile`, and the
state so obtained is an operand. -/
theorem composition_guarded {α : Type} (raw : llb.State α) (base prior : llb.Supplied α)
    (patched : Bool) (hrun : raw.isRun = true) (hops : raw.diffMergeOperands = [])
    (hcons : raw.runConsumers = []) :
    let executed := llb.State.Rm raw manifestFile
    let downloaded := llb.Merge [llb.Diff base.toState executed, executed]
    let g : llb.State α :=
      if patched then
        llb.Merge [base.toState,
          .Copy .Scratch (llb.Merge [llb.Diff base.toState prior.toState, downloaded]) "/" "/"]
      else llb.Merge [.Scratch, base.toState, llb.Diff base.toState downloaded]
    raw ∉ g.diffMergeOperands ∧
    (∀ x ∈ g.diffMergeOperands, x.isRun = false) ∧
    (∀ x ∈ g.runConsumers, x = llb.State.Rm raw manifestFile) ∧
    llb.State.Rm raw manifestFile ∈ g.diffMergeOperands := by
  have hne : ∀ x : llb.State α, x.isRun = false → raw ≠ x := by
    intro x hx hrx
    rw [← hrx, hrun] at hx
    exact Bool.noConfusion hx
  cases patched <;> cases base <;> cases prior <;>
    simp [llb.Merge, llb.Diff, llb.State.isScratch, llb.Supplied.toState, List.filter,
      llb.State.diffMergeOperands, llb.State.diffMergeOperands.operandsOfAll,
      llb.State.runConsumers, llb.State.runConsumers.consumersOfAll, hops, hcons,
      llb.State.isRun, hrun, hne]

/-- C6: in both composition paths, when the manifest is read back, the one
request issued is the extraction of `manifestFile` from the update step's
output; in the graph returned that output is no operand of a diff or merge
vertex (no operand is the output of a run), its only consumer is the removal
of `manifestFile`, and the state so obtained is an operand; the path removed
and extracted is `/tmp/manifest` in the image mounted at `/tmp/rootfs`, and
the command writes to `COPA_MANIFEST_FILE`, which is
`/tmp/rootfs/tmp/manifest`. -/
theorem manifest_removed_before_composition {α : Type} (rm : rpmZypperManager α)
    (deps : Deps α) (updates : UpdatePackages) (toolImage : String) (resultBytes : Bytes)
    (hread : deps.ExtractFileFromState (rm.updateStep deps updates toolImage) manifestFile
      = .ok resultBytes) :
    let raw := rm.updateStep deps updates toolImage
    ∃ g : llb.State α,
      (rm.zypperChrootInstallUpdates deps updates toolImage).1
        = ⟨some g, some resultBytes, none⟩ ∧
      (rm.zypperChrootInstallUpdates deps updates toolImage).2
        = [Request.ExtractFile raw manifestFile] ∧
      raw ∉ g.diffMergeOperands ∧
      (∀ x ∈ g.diffMergeOperands, x.isRun = false) ∧
      (∀ x ∈ g.runConsumers, x = llb.State.Rm raw manifestFile) ∧
      llb.State.Rm raw manifestFile ∈ g.diffMergeOperands ∧
      manifestFile = "/tmp/manifest" ∧ chrootDir = "/tmp/rootfs" ∧
      (∃ root opts, raw = .RunMount root opts chrootDir rm.config.ImageState.toState ∧
        opts.env.lookup "COPA_MANIFEST_FILE" = some (path.Join [chrootDir, manifestFile]) ∧
        ∃ before, opts.sh = before ++ " > \"$\x7bCOPA_MANIFEST_FILE\x7d\"\n\t") ∧
      path.Join [chrootDir, manifestFile] = "/tmp/rootfs/tmp/manifest" ∧
      path.Join [chrootDir, manifestFile] = chrootDir ++ manifestFile := by
  intro raw
  have hrun : raw.isRun = true := updateStep_isRun rm deps updates toolImage
  have hops : raw.diffMergeOperands = [] := (updateStep_leaf rm deps updates toolImage).1
  have hcons : raw.runConsumers = [] := (updateStep_leaf rm deps updates toolImage).2
  have hpaths : manifestFile = "/tmp/manifest" ∧ chrootDir = "/tmp/rootfs" ∧
      (∃ root opts, raw = .RunMount root opts chrootDir rm.config.ImageState.toState ∧
        opts.env.lookup "COPA_MANIFEST_FILE" = some (path.Join [chrootDir, manifestFile]) ∧
        ∃ before, opts.sh = before ++ " > \"$\x7bCOPA_MANIFEST_FILE\x7d\"\n\t") ∧
      path.Join [chrootDir, manifestFile] = "/tmp/rootfs/tmp/manifest" ∧
      path.Join [chrootDir, manifestFile] = chrootDir ++ manifestFile :=
    ⟨rfl, rfl,
      ⟨_, _, rfl, by simp [List.lookup],
        ⟨_, Sprintf_zypperCmdTemplate (pkgsToUpdate updates)⟩⟩,
      by decide, by decide⟩
  have hres : (rm.zypperChrootInstallUpdates deps updates toolImage)
      = (⟨some (if rm.config.PatchedConfigData.isSome then
            llb.Merge [rm.config.ImageState.toState,
              .Copy .Scratch
                (llb.Merge [llb.Diff rm.config.ImageState.toState
                    rm.config.PatchedImageState.toState,
                  llb.Merge [llb.Diff rm.config.ImageState.toState (.Rm raw manifestFile),
                    .Rm raw manifestFile]]) "/" "/"]
          else
            llb.Merge [.Scratch, rm.config.ImageState.toState,
              llb.Diff rm.config.ImageState.toState
                (llb.Merge [llb.Diff rm.config.ImageState.toState (.Rm raw manifestFile),
                  .Rm raw manifestFile])]), some resultBytes, none⟩,
          [Request.ExtractFile raw manifestFile]) := by
    simp only [rpmZypperManager.zypperChrootInstallUpdates, hread]
    cases rm.config.PatchedConfigData <;> rfl
  obtain ⟨h1, h2, h3, h4⟩ := composition_guarded raw rm.config.ImageState
    rm.config.PatchedImageState rm.config.PatchedConfigData.isSome hrun hops hcons
  exact ⟨_, congrArg Prod.fst hres, congrArg Prod.snd hres, h1, h2, h3, h4, hpaths⟩

/-- C6 on the sample image that was patched before. -/
theorem manifest_removed_before_composition_witness :
    sampleDeps.ExtractFileFromState
      (sampleRepatch.updateStep sampleDeps sampleUpdates "tool") manifestFile
      = .ok sampleManifest ∧
    (let raw := sampleRepatch.updateStep sampleDeps sampleUpdates "tool"
     ∃ g : llb.State FS,
      (sampleRepatch.zypperChrootInstallUpdates sampleDeps sampleUpdates "tool").1
        = ⟨some g, some sampleManifest, none⟩ ∧
      (sampleRepatch.zypperChrootInstallUpdates sampleDeps sampleUpdates "tool").2
        = [Request.ExtractFile raw manifestFile] ∧
      raw ∉ g.diffMergeOperands ∧
      (∀ x ∈ g.diffMergeOperands, x.isRun = false) ∧
      (∀ x ∈ g.runConsumers, x = llb.State.Rm raw manifestFile) ∧
      llb.State.Rm raw manifestFile ∈ g.diffMergeOperands ∧
      manifestFile = "/tmp/manifest" ∧ chrootDir = "/tmp/rootfs" ∧
      (∃ root opts,
        raw = .RunMount root opts chrootDir sampleRepatch.config.ImageState.toState ∧
        opts.env.lookup "COPA_MANIFEST_FILE" = some (path.Join [chrootDir, manifestFile]) ∧
        ∃ before, opts.sh = before ++ " > \"$\x7bCOPA_MANIFEST_FILE\x7d\"\n\t") ∧
      path.Join [chrootDir, manifestFile] = "/tmp/rootfs/tmp/manifest" ∧
      path.Join [chrootDir, manifestFile] = chrootDir ++ manifestFile) :=
  ⟨rfl, manifest_removed_before_composition sampleRepatch sampleDeps sampleUpdates "tool"
    sampleManifest rfl⟩

/-! ## Layer composition: the contents -/

/-- The content of the re-patch composition: with a prior patch present and
the manifest read back, the state returned holds at each path the file of the
executed state (the update step's output without the manifest) when there is
one, else the file that the prior patch changed, else the file of base. -/
theorem repatch_content {α : Type} (E : Engine α) (rm : rpmZypperManager α) (deps : Deps α)
    (updates : UpdatePackages) (toolImage : String) (data resultBytes : Bytes)
    (hdata : rm.config.PatchedConfigData = some data)
    (hread : deps.ExtractFileFromState (rm.updateStep deps updates toolImage) manifestFile
      = .ok resultBytes) :
    ∃ g : llb.State α,
      (rm.zypperChrootInstallUpdates deps updates toolImage).1.state = some g ∧
      ∀ p : String,
        eval E g p =
          match FS.rm (eval E (rm.updateStep deps updates toolImage)) manifestFile p with
          | some c => some c
          | none =>
            match FS.diff (eval E rm.config.ImageState.toState)
                (eval E rm.config.PatchedImageState.toState) p with
            | some c => some c
            | none => eval E rm.config.ImageState.toState p := by
  refine ⟨llb.Merge [rm.config.ImageState.toState,
    .Copy .Scratch
      (llb.Merge [llb.Diff rm.config.ImageState.toState rm.config.PatchedImageState.toState,
        llb.Merge [llb.Diff rm.config.ImageState.toState
            (.Rm (rm.updateStep deps updates toolImage) manifestFile),
          .Rm (rm.updateStep deps updates toolImage) manifestFile]]) "/" "/"], ?_, ?_⟩
  · simp only [rpmZypperManager.zypperChrootInstallUpdates, hread, hdata]
    rfl
  · intro p
    generalize rm.updateStep deps updates toolImage = raw
    generalize rm.config.ImageState.toState = base
    generalize rm.config.PatchedImageState.toState = prior
    have hd := eval_merge_diff_self E base (.Rm raw manifestFile)
    have hx0 : eval E (llb.State.Rm raw manifestFile) = FS.rm (eval E raw) manifestFile := by
      simp only [eval]
    rw [eval_Merge]
    simp only [eval.evalAll, eval, eval_Merge, eval_Diff, FS.merge, List.foldl, FS.overlay,
      FS.empty, and_self, if_true]
    cases hx : FS.rm (eval E raw) manifestFile p with
    | some c => simp
    | none =>
      cases hd : FS.diff (eval E base) (eval E prior) p with
      | some c => simp [FS.diff, hx]
      | none =>
        simp only [FS.diff, hx]
        cases eval E base p <;> rfl

/-- C3 fails on the sample image that was patched before: the prior patch
changed `/usr/lib64/libz.so.1` from `zlib-1.2.11` to `zlib-1.2.13`, the update
step leaves that path as it is in base, and the state returned holds
`zlib-1.2.11`, the content of base, there. -/
theorem repatch_regresses_prior_patch :
    sampleRepatch.config.PatchedConfigData ≠ none ∧
    samplePatched "/usr/lib64/libz.so.1" = some "zlib-1.2.13" ∧
    sampleBase "/usr/lib64/libz.so.1" = some "zlib-1.2.11" ∧
    eval sampleEngine (sampleRepatch.updateStep sampleDeps sampleUpdates "tool")
        "/usr/lib64/libz.so.1"
      = sampleBase "/usr/lib64/libz.so.1" ∧
    (sampleRepatch.zypperChrootInstallUpdates sampleDeps sampleUpdates "tool").1.state.map
        (fun g => eval sampleEngine g "/usr/lib64/libz.so.1")
      = some (some "zlib-1.2.11") := by
  refine ⟨by decide, by decide, by decide, by decide, by decide⟩

/-! ## InstallUpdates -/

/-- The two outcomes of `zypperChrootInstallUpdates`: an error alone, or a
state with the bytes of the manifest; either way the one request issued is
the extraction of the manifest. -/
theorem zypperChrootInstallUpdates_cases {α : Type} (rm : rpmZypperManager α) (deps : Deps α)
    (updates : UpdatePackages) (toolImage : String) :
    ((∃ err, (rm.zypperChrootInstallUpdates deps updates toolImage).1
        = ⟨none, none, some err⟩) ∨
     (∃ g resultBytes, (rm.zypperChrootInstallUpdates deps updates toolImage).1
        = ⟨some g, some resultBytes, none⟩)) ∧
    (rm.zypperChrootInstallUpdates deps updates toolImage).2
      = [Request.ExtractFile (rm.updateStep deps updates toolImage) manifestFile] := by
  cases hread : deps.ExtractFileFromState (rm.updateStep deps updates toolImage) manifestFile with
  | error err =>
    simp [rpmZypperManager.zypperChrootInstallUpdates, hread]
  | ok resultBytes =>
    cases hdata : rm.config.PatchedConfigData <;>
      simp [rpmZypperManager.zypperChrootInstallUpdates, hread, hdata]

/-- C7: for a manifest that is not nil, when the manifest has no updates and
the reducer returns the empty set for the empty input, and more generally
whenever the reducer returns the empty set, `InstallUpdates` returns the base
image state of the configuration, no failed-package list and no error, and
issues no request: no tooling image is chosen and nothing is run or
extracted. -/
theorem InstallUpdates_no_updates {α : Type} (rm : rpmZypperManager α) (deps : Deps α)
    (manifest : UpdateManifest) (ignoreErrors : Bool)
    (h : (manifest.Updates = [] ∧
          deps.GetUniqueLatestUpdates []
            ⟨deps.isValidRPMVersion, deps.isLessThanRPMVersion⟩ ignoreErrors = .ok []) ∨
        deps.GetUniqueLatestUpdates manifest.Updates
          ⟨deps.isValidRPMVersion, deps.isLessThanRPMVersion⟩ ignoreErrors = .ok []) :
    rm.InstallUpdates deps (some manifest) ignoreErrors
      = (⟨some rm.config.ImageState.toState, none, none⟩, []) := by
  have hred : deps.GetUniqueLatestUpdates manifest.Updates
      ⟨deps.isValidRPMVersion, deps.isLessThanRPMVersion⟩ ignoreErrors = .ok [] := by
    rcases h with ⟨hempty, hnil⟩ | hred
    · rw [hempty]; exact hnil
    · exact hred
  simp [rpmZypperManager.InstallUpdates, hred]

/-- C7 on a manifest without updates, with the sample reducer, for both values
of the flag. -/
theorem InstallUpdates_no_updates_witness :
    (((⟨"sles", "15.7", "amd64", []⟩ : UpdateManifest).Updates = [] ∧
        sampleDeps.GetUniqueLatestUpdates []
          ⟨sampleDeps.isValidRPMVersion, sampleDeps.isLessThanRPMVersion⟩ false = .ok []) ∨
      sampleDeps.GetUniqueLatestUpdates (⟨"sles", "15.7", "amd64", []⟩ : UpdateManifest).Updates
        ⟨sampleDeps.isValidRPMVersion, sampleDeps.isLessThanRPMVersion⟩ false = .ok []) ∧
    sampleFirstPatch.InstallUpdates sampleDeps (some ⟨"sles", "15.7", "amd64", []⟩) false
      = (⟨some (.Given sampleBase), none, none⟩, []) ∧
    sampleFirstPatch.InstallUpdates sampleDeps (some ⟨"sles", "15.7", "amd64", []⟩) true
      = (⟨some (.Given sampleBase), none, none⟩, []) :=
  ⟨Or.inl ⟨rfl, rfl⟩,
    InstallUpdates_no_updates sampleFirstPatch sampleDeps ⟨"sles", "15.7", "amd64", []⟩ false
      (Or.inl ⟨rfl, rfl⟩),
    InstallUpdates_no_updates sampleFirstPatch sampleDeps ⟨"sles", "15.7", "amd64", []⟩ true
      (Or.inl ⟨rfl, rfl⟩)⟩

/-- C8: without ignoring errors, when the reducer fails on the updates of the
manifest, `InstallUpdates` returns that error with no state and no
failed-package list and issues no request; every call of
`zypperChrootInstallUpdates` issues an extraction request, so it is not
called. -/
theorem InstallUpdates_reducer_error {α : Type} (rm : rpmZypperManager α) (deps : Deps α)
    (manifest : UpdateManifest) (err : Error)
    (h : deps.GetUniqueLatestUpdates manifest.Updates
      ⟨deps.isValidRPMVersion, deps.isLessThanRPMVersion⟩ false = .error err) :
    rm.InstallUpdates deps (some manifest) false = (⟨none, none, some err⟩, []) ∧
    ∀ (updates : UpdatePackages) (toolImage : String),
      (rm.zypperChrootInstallUpdates deps updates toolImage).2
        = [Request.ExtractFile (rm.updateStep deps updates toolImage) manifestFile] := by
  refine ⟨?_, fun updates toolImage => (zypperChrootInstallUpdates_cases rm deps updates toolImage).2⟩
  simp [rpmZypperManager.InstallUpdates, h]

/-- C8 on a manifest whose only update has the fixed version `not-a-version`,
with the sample reducer. -/
theorem InstallUpdates_reducer_error_witness :
    sampleDeps.GetUniqueLatestUpdates
      (⟨"sles", "15.7", "amd64", [⟨"curl", "7.79.1", "not-a-version", "CVE-2023-0001"⟩]⟩ :
        UpdateManifest).Updates
      ⟨sampleDeps.isValidRPMVersion, sampleDeps.isLessThanRPMVersion⟩ false
      = .error "invalid version not-a-version found for package curl" ∧
    (sampleFirstPatch.InstallUpdates sampleDeps
        (some ⟨"sles", "15.7", "amd64", [⟨"curl", "7.79.1", "not-a-version", "CVE-2023-0001"⟩]⟩)
        false
      = (⟨none, none, some "invalid version not-a-version found for package curl"⟩, []) ∧
    ∀ (updates : UpdatePackages) (toolImage : String),
      (sampleFirstPatch.zypperChrootInstallUpdates sampleDeps updates toolImage).2
        = [Request.ExtractFile (sampleFirstPatch.updateStep sampleDeps updates toolImage)
            manifestFile]) :=
  ⟨rfl, InstallUpdates_reducer_error sampleFirstPatch sampleDeps
    ⟨"sles", "15.7", "amd64", [⟨"curl", "7.79.1", "not-a-version", "CVE-2023-0001"⟩]⟩
    "invalid version not-a-version found for package curl" rfl⟩

/-- C9: let `unverified us b` say that some package of `us` is not verified
as upgraded by the manifest bytes `b`, and let the validator follow its
contract (without ignoring errors it returns an error whenever some package is
unverified, and it returns a list only when some package is unverified). Then
for every manifest, nil or not, and every flag: if `InstallUpdates` returns a
failed-package list, errors are ignored and some package of the reduced set is
unverified by the manifest read back; if it returns an error, it returns no
list and no state; and a list comes with no error and with a state. -/
theorem InstallUpdates_failed_list {α : Type} (rm : rpmZypperManager α) (deps : Deps α)
    (manifest : Option UpdateManifest) (ignoreErrors : Bool)
    (unverified : UpdatePackages → Bytes → Prop)
    (hstrict : ∀ us b, unverified us b →
      (deps.validateRPMPackageVersions us
        ⟨deps.isValidRPMVersion, deps.isLessThanRPMVersion⟩ b false).2 ≠ none)
    (hlist : ∀ us b ig,
      (deps.validateRPMPackageVersions us
        ⟨deps.isValidRPMVersion, deps.isLessThanRPMVersion⟩ b ig).1 ≠ none →
      unverified us b) :
    ((rm.InstallUpdates deps manifest ignoreErrors).1.errPkgs ≠ none →
      ignoreErrors = true ∧
      ∃ m us b, manifest = some m ∧
        deps.GetUniqueLatestUpdates m.Updates
          ⟨deps.isValidRPMVersion, deps.isLessThanRPMVersion⟩ ignoreErrors = .ok us ∧
        (rm.zypperChrootInstallUpdates deps us
          (getZypperToolingImageName rm.osType rm.osVersion)).1.resultBytes = some b ∧
        unverified us b) ∧
    ((rm.InstallUpdates deps manifest ignoreErrors).1.err ≠ none →
      (rm.InstallUpdates deps manifest ignoreErrors).1.errPkgs = none ∧
      (rm.InstallUpdates deps manifest ignoreErrors).1.state = none) ∧
    ((rm.InstallUpdates deps manifest ignoreErrors).1.errPkgs ≠ none →
      (rm.InstallUpdates deps manifest ignoreErrors).1.err = none ∧
      (rm.InstallUpdates deps manifest ignoreErrors).1.state ≠ none) := by
  cases manifest with
  | none => simp [rpmZypperManager.InstallUpdates]
  | some m =>
    cases hred : deps.GetUniqueLatestUpdates m.Updates
        ⟨deps.isValidRPMVersion, deps.isLessThanRPMVersion⟩ ignoreErrors with
    | error e => simp [rpmZypperManager.InstallUpdates, hred]
    | ok us =>
      by_cases hlen : us.length = 0
      · simp [rpmZypperManager.InstallUpdates, hred, hlen]
      · rcases (zypperChrootInstallUpdates_cases rm deps us
          (getZypperToolingImageName rm.osType rm.osVersion)).1 with ⟨e, hc⟩ | ⟨g, b, hc⟩
        · simp [rpmZypperManager.InstallUpdates, hred, hlen, hc]
        · cases hverr : (deps.validateRPMPackageVersions us
              ⟨deps.isValidRPMVersion, deps.isLessThanRPMVersion⟩ b ignoreErrors).2 with
          | some e => simp [rpmZypperManager.InstallUpdates, hred, hlen, hc, hverr]
          | none =>
            have hres : (rm.InstallUpdates deps (some m) ignoreErrors).1
                = ⟨some g, (deps.validateRPMPackageVersions us
                    ⟨deps.isValidRPMVersion, deps.isLessThanRPMVersion⟩ b ignoreErrors).1,
                    none⟩ := by
              simp [rpmZypperManager.InstallUpdates, hred, hlen, hc, hverr]
            rw [hres]
            refine ⟨fun hne => ⟨?_, m, us, b, rfl, hred, by rw [hc], hlist us b ignoreErrors hne⟩,
              fun hne => absurd rfl hne, fun _ => ⟨rfl, by simp⟩⟩
            cases ignoreErrors with
            | true => rfl
            | false => exact absurd hverr (hstrict us b (hlist us b false hne))

/-- The sample validator returns an error, when errors are not ignored,
whenever it finds a failed package. -/
theorem sampleValidate_strict (cmp : VersionComparer) (us : UpdatePackages) (b : Bytes)
    (h : sampleFailed us cmp b ≠ []) : (sampleValidate us cmp b false).2 ≠ none := by
  simp [sampleValidate, h]

/-- The sample validator returns a list only when it finds a failed package. -/
theorem sampleValidate_list (cmp : VersionComparer) (us : UpdatePackages) (b : Bytes)
    (ig : Bool) (h : (sampleValidate us cmp b ig).1 ≠ none) : sampleFailed us cmp b ≠ [] := by
  intro hnil
  simp [sampleValidate, hnil] at h

/-- C9 on the sample image, asking for zlib 1.2.13 and curl 8.0.1 with errors
ignored, where the manifest read back shows zlib 1.2.11: the list returned is
`zlib`, with a state and no error. -/
theorem InstallUpdates_failed_list_witness :
    (∀ us b, sampleFailed us ⟨sampleIsValid, sampleLessThan⟩ b ≠ [] →
      (sampleDeps.validateRPMPackageVersions us
        ⟨sampleDeps.isValidRPMVersion, sampleDeps.isLessThanRPMVersion⟩ b false).2 ≠ none) ∧
    (∀ us b ig,
      (sampleDeps.validateRPMPackageVersions us
        ⟨sampleDeps.isValidRPMVersion, sampleDeps.isLessThanRPMVersion⟩ b ig).1 ≠ none →
      sampleFailed us ⟨sampleIsValid, sampleLessThan⟩ b ≠ []) ∧
    (sampleRepatch.InstallUpdates sampleDeps
      (some ⟨"sles", "15.7", "amd64",
        [⟨"zlib", "1.2.11", "1.2.13", "CVE-2022-37434"⟩,
         ⟨"curl", "7.79.1", "8.0.1", "CVE-2023-0001"⟩]⟩) true).1.errPkgs = some ["zlib"] ∧
    (((sampleRepatch.InstallUpdates sampleDeps
        (some ⟨"sles", "15.7", "amd64",
          [⟨"zlib", "1.2.11", "1.2.13", "CVE-2022-37434"⟩,
           ⟨"curl", "7.79.1", "8.0.1", "CVE-2023-0001"⟩]⟩) true).1.errPkgs ≠ none →
      true = true ∧
      ∃ m us b,
        (some ⟨"sles", "15.7", "amd64",
          [⟨"zlib", "1.2.11", "1.2.13", "CVE-2022-37434"⟩,
           ⟨"curl", "7.79.1", "8.0.1", "CVE-2023-0001"⟩]⟩ : Option UpdateManifest) = some m ∧
        sampleDeps.GetUniqueLatestUpdates m.Updates
          ⟨sampleDeps.isValidRPMVersion, sampleDeps.isLessThanRPMVersion⟩ true = .ok us ∧
        (sampleRepatch.zypperChrootInstallUpdates sampleDeps us
          (getZypperToolingImageName sampleRepatch.osType sampleRepatch.osVersion)).1.resultBytes
          = some b ∧
        sampleFailed us ⟨sampleIsValid, sampleLessThan⟩ b ≠ []) ∧
     ((sampleRepatch.InstallUpdates sampleDeps
        (some ⟨"sles", "15.7", "amd64",
          [⟨"zlib", "1.2.11", "1.2.13", "CVE-2022-37434"⟩,
           ⟨"curl", "7.79.1", "8.0.1", "CVE-2023-0001"⟩]⟩) true).1.err ≠ none →
      (sampleRepatch.InstallUpdates sampleDeps
        (some ⟨"sles", "15.7", "amd64",
          [⟨"zlib", "1.2.11", "1.2.13", "CVE-2022-37434"⟩,
           ⟨"curl", "7.79.1", "8.0.1", "CVE-2023-0001"⟩]⟩) true).1.errPkgs = none ∧
      (sampleRepatch.InstallUpdates sampleDeps
        (some ⟨"sles", "15.7", "amd64",
          [⟨"zlib", "1.2.11", "1.2.13", "CVE-2022-37434"⟩,
           ⟨"curl", "7.79.1", "8.0.1", "CVE-2023-0001"⟩]⟩) true).1.state = none) ∧
     ((sampleRepatch.InstallUpdates sampleDeps
        (some ⟨"sles", "15.7", "amd64",
          [⟨"zlib", "1.2.11", "1.2.13", "CVE-2022-37434"⟩,
           ⟨"curl", "7.79.1", "8.0.1", "CVE-2023-0001"⟩]⟩) true).1.errPkgs ≠ none →
      (sampleRepatch.InstallUpdates sampleDeps
        (some ⟨"sles", "15.7", "amd64",
          [⟨"zlib", "1.2.11", "1.2.13", "CVE-2022-37434"⟩,
           ⟨"curl", "7.79.1", "8.0.1", "CVE-2023-0001"⟩]⟩) true).1.err = none ∧
      (sampleRepatch.InstallUpdates sampleDeps
        (some ⟨"sles", "15.7", "amd64",
          [⟨"zlib", "1.2.11", "1.2.13", "CVE-2022-37434"⟩,
           ⟨"curl", "7.79.1", "8.0.1", "CVE-2023-0001"⟩]⟩) true).1.state ≠ none)) :=
  ⟨fun us b h => sampleValidate_strict _ us b h,
    fun us b ig h => sampleValidate_list _ us b ig h,
    by rfl,
    InstallUpdates_failed_list sampleRepatch sampleDeps _ true
      (fun us b => sampleFailed us ⟨sampleIsValid, sampleLessThan⟩ b ≠ [])
      (fun us b h => sampleValidate_strict _ us b h)
      (fun us b ig h => sampleValidate_list _ us b ig h)⟩

end Copa
